import Mathlib

/-!
Shallow embedding of the calorie-calculator backend (`src/main.py`).

Real-valued quantities (Python floats holding gram amounts and calorie
densities) are modelled as exact rationals; Python's builtin `round(x, 2)`
(round half to even) is modelled by `round2` below.
-/

namespace CalorieCalc

/-- Input food item (`FoodItem` pydantic model, `src/main.py` lines 18-27).
The `ge=0` constraints are modelled separately by `validItem`. -/
structure FoodItem where
  name : String
  amount_g : ℚ
  calories_per_100g : Option ℚ
  calories_per_serving : Option ℚ
  serving_size_g : Option ℚ
deriving DecidableEq

/-- Request body (`CalculationRequest`). -/
structure CalculationRequest where
  items : List FoodItem
deriving DecidableEq

/-- Per-item output (`ItemResult`). -/
structure ItemResult where
  name : String
  amount_g : ℚ
  calories : ℚ
  method : String
  note : Option String
deriving DecidableEq

/-- Response body (`CalculationResponse`). -/
structure CalculationResponse where
  total_calories : ℚ
  items : List ItemResult
deriving DecidableEq

/-- Round half to even to an integer, as Python's builtin `round` does. -/
def rndHalfEven (q : ℚ) : ℤ :=
  if q - (⌊q⌋ : ℚ) = 1 / 2 then (if Even ⌊q⌋ then ⌊q⌋ else ⌊q⌋ + 1)
  else round q

/-- Python's `round(x, 2)`: round to 2 decimal places, ties to even. -/
def round2 (q : ℚ) : ℚ := (rndHalfEven (q * 100) : ℚ) / 100

/-- The fixed note text used by the `insufficient_data` fallback branch. -/
def missingNote : String := "Missing calorie data; counted as 0"

/-- The if/elif/else branch selection of the loop body in
`calculate_calories` (`src/main.py` lines 67-80): produces the unrounded
calories value, the method tag and the optional note. -/
def selectMethod (item : FoodItem) : ℚ × String × Option String :=
  match item.calories_per_100g with
  | some c100 => ((item.amount_g * c100) / 100, "per_100g", none)
  | none =>
    match item.calories_per_serving, item.serving_size_g with
    | some cps, some ssg =>
      if 0 < ssg then ((item.amount_g / ssg) * cps, "per_serving", none)
      else (0, "insufficient_data", some missingNote)
    | some _, none => (0, "insufficient_data", some missingNote)
    | none, _ => (0, "insufficient_data", some missingNote)

/-- One iteration of the loop in `calculate_calories`
(`src/main.py` lines 62-93): branch selection, rounding to 2 decimals,
construction of the `ItemResult`. -/
def computeItem (item : FoodItem) : ItemResult :=
  let r := selectMethod item
  { name := item.name
    amount_g := item.amount_g
    calories := round2 r.1
    method := r.2.1
    note := r.2.2 }

/-- `calculate_calories` (`src/main.py` lines 57-95): process each item in
order, accumulate the already-rounded per-item calories into the running
total, round the total once more at the end. -/
def calculate_calories (payload : CalculationRequest) : CalculationResponse :=
  let results := payload.items.map computeItem
  let total := results.foldl (fun t r => t + r.calories) 0
  { total_calories := round2 total, items := results }

/-- True when an optional field satisfies the pydantic `ge=0` constraint
(absent fields pass). -/
def nonnegOpt (o : Option ℚ) : Bool :=
  match o with
  | none => true
  | some x => decide (0 ≤ x)

/-- The pydantic `Field(..., ge=0)` constraints on `FoodItem`
(`src/main.py` lines 18-27). -/
def validItem (item : FoodItem) : Bool :=
  decide (0 ≤ item.amount_g)
    && nonnegOpt item.calories_per_100g
    && nonnegOpt item.calories_per_serving
    && nonnegOpt item.serving_size_g

/-- Modelled from the spec: FastAPI/pydantic enforce the `ge=0` field
constraints at the API boundary and reject the whole request with a
validation error before the handler body of `POST /api/calculate` runs.
The framework code that performs the rejection is not part of this
repository; the constraints themselves are declared in `src/main.py`
lines 18-27. -/
def api_calculate (payload : CalculationRequest) :
    Except String CalculationResponse :=
  if payload.items.all validItem then .ok (calculate_calories payload)
  else .error "validation error"

/-- Division with an explicit division-by-zero check, to model the fact
that Python raises `ZeroDivisionError` instead of returning a value. -/
def div? (a b : ℚ) : Option ℚ := if b = 0 then none else some (a / b)

/-- Exception-aware version of `selectMethod`: every division performed by
the Python code goes through `div?`, so a reachable division by zero would
surface as `none`. -/
def selectMethodE (item : FoodItem) : Option (ℚ × String × Option String) :=
  match item.calories_per_100g with
  | some c100 =>
    (div? (item.amount_g * c100) 100).map (fun v => (v, "per_100g", none))
  | none =>
    match item.calories_per_serving, item.serving_size_g with
    | some cps, some ssg =>
      if 0 < ssg then
        (div? item.amount_g ssg).map
          (fun s => (s * cps, "per_serving", none))
      else some (0, "insufficient_data", some missingNote)
    | some _, none => some (0, "insufficient_data", some missingNote)
    | none, _ => some (0, "insufficient_data", some missingNote)

/-- Exception-aware version of `computeItem`. -/
def computeItemE (item : FoodItem) : Option ItemResult :=
  (selectMethodE item).map (fun r =>
    { name := item.name
      amount_g := item.amount_g
      calories := round2 r.1
      method := r.2.1
      note := r.2.2 })

/-- Exception-aware loop over the items: stops with `none` as soon as one
iteration would raise. -/
def loopE : List FoodItem → Option (List ItemResult)
  | [] => some []
  | x :: xs =>
    match computeItemE x, loopE xs with
    | some r, some rs => some (r :: rs)
    | _, _ => none

/-- Exception-aware version of `calculate_calories`: `none` means the
Python function would raise an exception. -/
def calculate_caloriesE (payload : CalculationRequest) :
    Option CalculationResponse :=
  (loopE payload.items).map (fun results =>
    { total_calories := round2 (results.foldl (fun t r => t + r.calories) 0)
      items := results })

/-! ### Evaluation lemmas for `round2` -/

/-- `round2` at a value whose hundredfold is an integer is the identity. -/
lemma round2_of_intval (q : ℚ) (n : ℤ) (h : q * 100 = (n : ℚ)) :
    round2 q = (n : ℚ) / 100 := by
  unfold round2 rndHalfEven
  rw [h, Int.floor_intCast, sub_self]
  norm_num

/-- `round2` at an exact half-cent with even cent part rounds down. -/
lemma round2_tie (q : ℚ) (n : ℤ) (h : q * 100 = (n : ℚ) + 1 / 2)
    (he : Even n) : round2 q = (n : ℚ) / 100 := by
  have hf : ⌊q * 100⌋ = n := by
    rw [h, Int.floor_eq_iff]
    constructor <;> norm_num
  unfold round2 rndHalfEven
  rw [hf, h]
  simp [he]

lemma round2_zero : round2 0 = 0 := by
  have h := round2_of_intval 0 0 (by norm_num)
  simpa using h

lemma rndHalfEven_nonneg (q : ℚ) (h : 0 ≤ q) : 0 ≤ rndHalfEven q := by
  unfold rndHalfEven
  have hfl : (0 : ℤ) ≤ ⌊q⌋ := Int.floor_nonneg.mpr h
  split
  · split
    · exact hfl
    · omega
  · rw [round_eq]
    have : (0 : ℚ) ≤ q + 1 / 2 := by linarith
    exact Int.floor_nonneg.mpr this

lemma round2_nonneg (q : ℚ) (h : 0 ≤ q) : 0 ≤ round2 q := by
  unfold round2
  have h1 : 0 ≤ q * 100 := by positivity
  have h2 : (0 : ℚ) ≤ (rndHalfEven (q * 100) : ℚ) := by
    exact_mod_cast rndHalfEven_nonneg _ h1
  positivity

/-- Unwinding the running total of the loop into a list sum. -/
lemma foldl_add_eq (l : List ItemResult) (a : ℚ) :
    l.foldl (fun t r => t + r.calories) a = a + (l.map ItemResult.calories).sum := by
  induction l generalizing a with
  | nil => simp
  | cons x xs ih => simp [ih, add_assoc]

/-! ### Concrete inputs used by witnesses and counterexamples -/

/-- Example item using the per-100g method (spec §8 scenario 1). -/
def appleItem : FoodItem := ⟨"Apple", 150, some 52, none, none⟩

/-- Example item using the per-serving method (spec §8 scenario 2). -/
def barItem : FoodItem := ⟨"Bar", 40, none, some 200, some 50⟩

/-- Example item with a zero serving size (spec §8 scenario 4). -/
def mysteryItem : FoodItem := ⟨"Mystery", 100, none, some 200, some 0⟩

/-- Item whose unrounded calories are 0.125, exposing the tie-break. -/
def tieItem : FoodItem := ⟨"A", 25 / 2, some 1, none, none⟩

/-- Item with a negative amount, rejected by validation. -/
def badItem : FoodItem := ⟨"Bad", -5, none, none, none⟩

def applePayload : CalculationRequest := ⟨[appleItem]⟩

def barPayload : CalculationRequest := ⟨[barItem]⟩

def mysteryPayload : CalculationRequest := ⟨[mysteryItem]⟩

def tiePayload : CalculationRequest := ⟨[tieItem, tieItem]⟩

def badPayload : CalculationRequest := ⟨[badItem]⟩

/-- The unrounded calories value a branch computes, before `round(_, 2)`. -/
def rawCalories (item : FoodItem) : ℚ := (selectMethod item).1

/-! ### Claims -/

/-- C1: whenever `calories_per_100g` is present, the result for that item has
`calories = round(amount_g * calories_per_100g / 100, 2)` and method
`per_100g`, regardless of the other optional fields. -/
theorem per100g_branch (payload : CalculationRequest) (i : ℕ) (item : FoodItem)
    (c : ℚ) (hit : payload.items[i]? = some item)
    (hc : item.calories_per_100g = some c) :
    ∃ r : ItemResult, (calculate_calories payload).items[i]? = some r ∧
      r.calories = round2 (item.amount_g * c / 100) ∧ r.method = "per_100g" := by
  refine ⟨computeItem item, ?_, ?_, ?_⟩
  · simp [calculate_calories, List.getElem?_map, hit]
  · simp [computeItem, selectMethod, hc]
  · simp [computeItem, selectMethod, hc]

theorem per100g_branch_witness :
    applePayload.items[0]? = some appleItem ∧
      appleItem.calories_per_100g = some 52 ∧
      ∃ r : ItemResult, (calculate_calories applePayload).items[0]? = some r ∧
        r.calories = round2 (appleItem.amount_g * 52 / 100) ∧
        r.method = "per_100g" :=
  ⟨rfl, rfl, per100g_branch applePayload 0 appleItem 52 rfl rfl⟩

/-- C2: whenever `calories_per_100g` is absent but `calories_per_serving` and
a strictly positive `serving_size_g` are present, the result has
`calories = round((amount_g / serving_size_g) * calories_per_serving, 2)` and
method `per_serving`. -/
theorem per_serving_branch (payload : CalculationRequest) (i : ℕ)
    (item : FoodItem) (cps ssg : ℚ) (hit : payload.items[i]? = some item)
    (h100 : item.calories_per_100g = none)
    (hcps : item.calories_per_serving = some cps)
    (hssg : item.serving_size_g = some ssg) (hpos : 0 < ssg) :
    ∃ r : ItemResult, (calculate_calories payload).items[i]? = some r ∧
      r.calories = round2 (item.amount_g / ssg * cps) ∧
      r.method = "per_serving" := by
  refine ⟨computeItem item, ?_, ?_, ?_⟩
  · simp [calculate_calories, List.getElem?_map, hit]
  · simp [computeItem, selectMethod, h100, hcps, hssg, hpos]
  · simp [computeItem, selectMethod, h100, hcps, hssg, hpos]

theorem per_serving_branch_witness :
    barPayload.items[0]? = some barItem ∧
      barItem.calories_per_100g = none ∧
      barItem.calories_per_serving = some 200 ∧
      barItem.serving_size_g = some 50 ∧ (0 : ℚ) < 50 ∧
      ∃ r : ItemResult, (calculate_calories barPayload).items[0]? = some r ∧
        r.calories = round2 (barItem.amount_g / 50 * 200) ∧
        r.method = "per_serving" :=
  ⟨rfl, rfl, rfl, rfl, by norm_num,
    per_serving_branch barPayload 0 barItem 200 50 rfl rfl rfl rfl (by norm_num)⟩

/-- C3: with `calories_per_100g` absent and no usable per-serving data
(`calories_per_serving` absent, `serving_size_g` absent, or
`serving_size_g ≤ 0`), the result has zero calories, method
`insufficient_data` and a non-empty note. -/
theorem insufficient_branch (payload : CalculationRequest) (i : ℕ)
    (item : FoodItem) (hit : payload.items[i]? = some item)
    (h100 : item.calories_per_100g = none)
    (hserv : item.calories_per_serving = none ∨ item.serving_size_g = none ∨
      ∃ s, item.serving_size_g = some s ∧ s ≤ 0) :
    ∃ r : ItemResult, (calculate_calories payload).items[i]? = some r ∧
      r.calories = 0 ∧ r.method = "insufficient_data" ∧
      ∃ t, r.note = some t ∧ t ≠ "" := by
  have hsel : selectMethod item = (0, "insufficient_data", some missingNote) := by
    unfold selectMethod
    rw [h100]
    rcases hserv with h | h | ⟨s, hs, hle⟩
    · rw [h]
    · rw [h]
      cases item.calories_per_serving <;> rfl
    · rw [hs]
      cases item.calories_per_serving with
      | none => rfl
      | some cps => simp [not_lt.mpr hle]
  refine ⟨computeItem item, ?_, ?_, ?_, ?_⟩
  · simp [calculate_calories, List.getElem?_map, hit]
  · simp [computeItem, hsel, round2_zero]
  · simp [computeItem, hsel]
  · exact ⟨missingNote, by simp [computeItem, hsel], by decide⟩

theorem insufficient_branch_witness :
    mysteryPayload.items[0]? = some mysteryItem ∧
      mysteryItem.calories_per_100g = none ∧
      (∃ s, mysteryItem.serving_size_g = some s ∧ s ≤ 0) ∧
      ∃ r : ItemResult, (calculate_calories mysteryPayload).items[0]? = some r ∧
        r.calories = 0 ∧ r.method = "insufficient_data" ∧
        ∃ t, r.note = some t ∧ t ≠ "" :=
  ⟨rfl, rfl, ⟨0, rfl, le_refl 0⟩,
    insufficient_branch mysteryPayload 0 mysteryItem rfl rfl
      (Or.inr (Or.inr ⟨0, rfl, le_refl 0⟩))⟩

/-- C4: the total is the rounded sum of the already individually rounded
per-item calories, and this differs from rounding the unrounded sum: at
`tiePayload` the two-stage total is 0.24 while a single rounding of the
unrounded sum would give 0.25. -/
theorem two_stage_rounding :
    (∀ payload : CalculationRequest,
      (calculate_calories payload).total_calories =
        round2 (((calculate_calories payload).items.map ItemResult.calories).sum)) ∧
    (calculate_calories tiePayload).total_calories ≠
      round2 ((tiePayload.items.map rawCalories).sum) := by
  constructor
  · intro payload
    simp [calculate_calories, foldl_add_eq]
  · have hraw : rawCalories tieItem = 1 / 8 := by
      show (25 / 2 : ℚ) * 1 / 100 = 1 / 8
      norm_num
    have h1 : round2 (rawCalories tieItem) = 12 / 100 := by
      rw [hraw]
      have h := round2_tie (1 / 8) 12 (by norm_num) (by decide)
      rw [h]
      norm_num
    have hitem : (computeItem tieItem).calories = 12 / 100 := h1
    have hlhs : (calculate_calories tiePayload).total_calories = 24 / 100 := by
      have e1 : (calculate_calories tiePayload).total_calories =
          round2 (0 + (computeItem tieItem).calories +
            (computeItem tieItem).calories) := rfl
      have e2 : (0 : ℚ) + 12 / 100 + 12 / 100 = 24 / 100 := by norm_num
      rw [e1, hitem, e2]
      have h := round2_of_intval (24 / 100) 24 (by norm_num)
      rw [h]
      norm_num
    have hrhs : round2 ((tiePayload.items.map rawCalories).sum) = 25 / 100 := by
      have e3 : (tiePayload.items.map rawCalories).sum =
          rawCalories tieItem + (rawCalories tieItem + 0) := rfl
      have e4 : (1 / 8 : ℚ) + (1 / 8 + 0) = 1 / 4 := by norm_num
      rw [e3, hraw, e4]
      have h := round2_of_intval (1 / 4) 25 (by norm_num)
      rw [h]
      norm_num
    rw [hlhs, hrhs]
    norm_num

/-- C5: the output list has the same length and order as the input list, and
each result echoes the matching input's name and amount. -/
theorem echo_and_order (payload : CalculationRequest) :
    (calculate_calories payload).items.length = payload.items.length ∧
    ∀ i : ℕ,
      (calculate_calories payload).items[i]?.map ItemResult.name =
        payload.items[i]?.map FoodItem.name ∧
      (calculate_calories payload).items[i]?.map ItemResult.amount_g =
        payload.items[i]?.map FoodItem.amount_g := by
  constructor
  · simp [calculate_calories]
  · intro i
    constructor <;>
      · simp only [calculate_calories, List.getElem?_map, Option.map_map]
        cases payload.items[i]? <;> rfl

/-- C6: a request containing an item with any negative numeric field is
rejected by the boundary validation, so the calculator produces no results
for it. -/
theorem negative_rejected (payload : CalculationRequest)
    (h : ∃ item ∈ payload.items,
      item.amount_g < 0 ∨ (∃ c, item.calories_per_100g = some c ∧ c < 0) ∨
      (∃ c, item.calories_per_serving = some c ∧ c < 0) ∨
      (∃ s, item.serving_size_g = some s ∧ s < 0)) :
    api_calculate payload = .error "validation error" := by
  obtain ⟨item, hmem, hneg⟩ := h
  have hv : ¬ validItem item = true := by
    intro hvt
    simp only [validItem, Bool.and_eq_true, decide_eq_true_eq] at hvt
    obtain ⟨⟨⟨ha, h100⟩, hcps⟩, hssg⟩ := hvt
    rcases hneg with h1 | ⟨c, hc, hcneg⟩ | ⟨c, hc, hcneg⟩ | ⟨s, hs, hsneg⟩
    · exact absurd ha (not_le.mpr h1)
    · rw [hc] at h100
      simp only [nonnegOpt, decide_eq_true_eq] at h100
      exact absurd h100 (not_le.mpr hcneg)
    · rw [hc] at hcps
      simp only [nonnegOpt, decide_eq_true_eq] at hcps
      exact absurd hcps (not_le.mpr hcneg)
    · rw [hs] at hssg
      simp only [nonnegOpt, decide_eq_true_eq] at hssg
      exact absurd hssg (not_le.mpr hsneg)
  have hall : ¬ payload.items.all validItem = true := by
    simp only [List.all_eq_true]
    intro hall
    exact hv (hall item hmem)
  simp [api_calculate, hall]

theorem negative_rejected_witness :
    (∃ item ∈ badPayload.items, item.amount_g < 0 ∨
      (∃ c, item.calories_per_100g = some c ∧ c < 0) ∨
      (∃ c, item.calories_per_serving = some c ∧ c < 0) ∨
      (∃ s, item.serving_size_g = some s ∧ s < 0)) ∧
    api_calculate badPayload = .error "validation error" :=
  ⟨⟨badItem, by simp [badPayload], Or.inl (by norm_num [badItem])⟩,
    negative_rejected badPayload
      ⟨badItem, by simp [badPayload], Or.inl (by norm_num [badItem])⟩⟩

/-- C7: on every validated request the exception-aware evaluator returns a
response and agrees with `calculate_calories`; in particular no division by
zero is reachable under the `serving_size_g > 0` guard. -/
theorem calculator_total (payload : CalculationRequest)
    (_h : payload.items.all validItem = true) :
    calculate_caloriesE payload = some (calculate_calories payload) := by
  have hitem : ∀ item : FoodItem, computeItemE item = some (computeItem item) := by
    intro item
    unfold computeItemE computeItem selectMethodE selectMethod div?
    cases item.calories_per_100g with
    | some c => norm_num
    | none =>
      cases item.calories_per_serving with
      | none => rfl
      | some cps =>
        cases item.serving_size_g with
        | none => rfl
        | some ssg =>
          by_cases hpos : 0 < ssg
          · simp [hpos, ne_of_gt hpos]
          · simp [hpos]
  have hloop : ∀ l : List FoodItem, loopE l = some (l.map computeItem) := by
    intro l
    induction l with
    | nil => rfl
    | cons x xs ih => simp [loopE, hitem, ih]
  simp [calculate_caloriesE, hloop, calculate_calories]

theorem calculator_total_witness :
    applePayload.items.all validItem = true ∧
      calculate_caloriesE applePayload = some (calculate_calories applePayload) :=
  ⟨rfl, calculator_total applePayload rfl⟩

/-- C8: on a validated item every computed calories value is non-negative,
and the total of a validated request is non-negative. -/
theorem nonneg_results (payload : CalculationRequest)
    (h : payload.items.all validItem = true) :
    (∀ r ∈ (calculate_calories payload).items, 0 ≤ r.calories) ∧
      0 ≤ (calculate_calories payload).total_calories := by
  have hitem : ∀ item : FoodItem, validItem item = true →
      0 ≤ (computeItem item).calories := by
    intro item hv
    simp only [validItem, Bool.and_eq_true, decide_eq_true_eq] at hv
    obtain ⟨⟨⟨ha, h100⟩, hcps⟩, hssg⟩ := hv
    have : 0 ≤ (selectMethod item).1 := by
      unfold selectMethod
      cases hc : item.calories_per_100g with
      | some c =>
        have hc0 : 0 ≤ c := by simpa [nonnegOpt, hc] using h100
        exact div_nonneg (mul_nonneg ha hc0) (by norm_num)
      | none =>
        cases hp : item.calories_per_serving with
        | none => cases item.serving_size_g <;> norm_num
        | some cps =>
          have hp0 : 0 ≤ cps := by simpa [nonnegOpt, hp] using hcps
          cases hs : item.serving_size_g with
          | none => norm_num
          | some ssg =>
            by_cases hpos : 0 < ssg
            · simp only [hpos, if_true]
              exact mul_nonneg (div_nonneg ha (le_of_lt hpos)) hp0
            · simp [hpos]
    exact round2_nonneg _ this
  have hall : ∀ item ∈ payload.items, validItem item = true :=
    List.all_eq_true.mp h
  constructor
  · intro r hr
    simp only [calculate_calories, List.mem_map] at hr
    obtain ⟨item, hmem, rfl⟩ := hr
    exact hitem item (hall item hmem)
  · simp only [calculate_calories, foldl_add_eq, zero_add]
    apply round2_nonneg
    apply List.sum_nonneg
    intro x hx
    simp only [List.map_map, List.mem_map] at hx
    obtain ⟨item, hmem, rfl⟩ := hx
    exact hitem item (hall item hmem)

theorem nonneg_results_witness :
    barPayload.items.all validItem = true ∧
      ((∀ r ∈ (calculate_calories barPayload).items, 0 ≤ r.calories) ∧
        0 ≤ (calculate_calories barPayload).total_calories) :=
  ⟨rfl, nonneg_results barPayload rfl⟩

/-- C9: the method tag of every produced item result is one of the three
branch tags, never the loop's initialization value `unknown`. -/
theorem method_exhaustive (item : FoodItem) :
    ((computeItem item).method = "per_100g" ∨
      (computeItem item).method = "per_serving" ∨
      (computeItem item).method = "insufficient_data") ∧
    (computeItem item).method ≠ "unknown" := by
  have hsel : (selectMethod item).2.1 = "per_100g" ∨
      (selectMethod item).2.1 = "per_serving" ∨
      (selectMethod item).2.1 = "insufficient_data" := by
    unfold selectMethod
    cases item.calories_per_100g with
    | some c => simp
    | none =>
      cases item.calories_per_serving with
      | none => cases item.serving_size_g <;> simp
      | some cps =>
        cases item.serving_size_g with
        | none => simp
        | some ssg => by_cases hpos : 0 < ssg <;> simp [hpos]
  have hm : (computeItem item).method = (selectMethod item).2.1 := rfl
  rw [hm]
  refine ⟨hsel, ?_⟩
  rcases hsel with h | h | h <;> rw [h] <;> decide

/-- C10: the empty request yields total 0 and an empty result list. -/
theorem empty_request :
    (calculate_calories ⟨[]⟩).total_calories = 0 ∧
      (calculate_calories ⟨[]⟩).items = [] := by
  constructor
  · simp [calculate_calories, round2_zero]
  · rfl

end CalorieCalc
